import Mathlib

/-
Verification development for the s3_cache repository (Go).

The file shallow-embeds the layered key-materialization pipeline of
src/s3_cache.go: the streaming fetcher (tempKeyGetter), the disk cache
(diskCachedKeyGetter), the in-memory LRU layer (lruCachedKeyGetter), the
byte-budget reaper (boundedDiskCachedKeyGetter.keepClean), the mutability
gate (EvictingMutableKeyGetter.Get) and the HTTP handler
(keyServer.ServeHTTP).  Machine integers are modelled as Int or Nat,
filesystem and network effects as explicit state passing, and Go panics as
an Except error.  Definitions follow the Go source; spec-side predicates
are clearly marked.
-/

namespace S3Cache

/-- Embedding of the Go struct getResult (src/s3_cache.go lines 21-28).
localPath is a nullable pointer in Go, hence Option.  bytesTransferred is
an int64, modelled as Int. -/
structure getResult where
  keyName : String
  status : String
  localPath : Option String
  bucketName : String
  bytesTransferred : Int
  md5 : String
deriving DecidableEq, Repr

/-- The Go zero value of getResult, as produced by make([]getResult, n). -/
def getResult.zero : getResult :=
  { keyName := "", status := "", localPath := none, bucketName := "",
    bytesTransferred := 0, md5 := "" }

/-- A Go runtime panic, used to model calling a method on a nil interface. -/
inductive GoPanic where
  | nilPointerDereference
deriving DecidableEq, Repr

/-! Embedding of the parts of Go encoding/hex used by the fetcher:
hex.Dump (the multi-column hexdump format actually called by the source)
and hex.EncodeToString (the plain lowercase-hex encoding the spec
describes). Bytes are Nat values < 256. -/

/-- Lowercase hexadecimal digit for a value below 16 (Go hextable). -/
def hexDigitChar (n : Nat) : Char :=
  if n < 10 then Char.ofNat (48 + n) else Char.ofNat (87 + n)

/-- Two lowercase hex digits of one byte (Go hex.Encode on one byte). -/
def hexOfByte (b : Nat) : String :=
  String.mk [hexDigitChar (b / 16 % 16), hexDigitChar (b % 16)]

/-- The 8-hex-digit offset column written at the start of each dump line. -/
def hexOffset (n : Nat) : String :=
  String.mk (((List.range 8).reverse).map fun k => hexDigitChar (n / 16 ^ k % 16))

/-- The right-hand ASCII column of hex.Dump: printable bytes as
themselves, everything else as a dot (Go toChar in encoding/hex). -/
def dumpChar (b : Nat) : Char :=
  if b < 32 ∨ 126 < b then '.' else Char.ofNat b

/-- The hex group written for the byte at index i of a dump line, with the
extra column space after index 7 and the bar before the ASCII column after
index 15, exactly as the dumper in encoding/hex writes them. -/
def byteGroup (i b : Nat) : String :=
  hexOfByte b ++ (if i = 7 then "  " else if i = 15 then "  |" else " ")

/-- The padding written by the dumper Close for a missing byte position of
a final partial line. -/
def padGroup (i : Nat) : String :=
  if i = 7 then "    " else if i = 15 then "    |" else "   "

/-- One line of Go hex.Dump output for a chunk of at most 16 bytes. -/
def dumpLine (off : Nat) (chunk : List Nat) : String :=
  hexOffset off ++ "  "
    ++ String.join (chunk.enum.map (fun p => byteGroup p.1 p.2))
    ++ String.join (((List.range 16).drop chunk.length).map padGroup)
    ++ String.mk (chunk.map dumpChar) ++ "|\n"

/-- The 16-byte chunking loop of hex.Dump.  The Nat counter is a
structural bound on the number of chunks; data.length chunks always
suffice since every chunk consumes at least one byte. -/
def hexDumpChunks : Nat → Nat → List Nat → List String
  | 0, _, _ => []
  | _, _, [] => []
  | fuel + 1, off, b :: bs =>
      dumpLine off ((b :: bs).take 16) :: hexDumpChunks fuel (off + 16) ((b :: bs).drop 16)

/-- Embedding of Go hex.Dump: the hexdump-styled, multi-column rendering
of a byte slice.  This is the function the source applies to the MD5 sum. -/
def goHexDump (data : List Nat) : String :=
  String.join (hexDumpChunks data.length 0 data)

/-- Embedding of Go hex.EncodeToString: plain lowercase hex, two digits
per byte.  This is the representation the spec describes for digests. -/
def goHexEncode (data : List Nat) : String :=
  String.join (data.map hexOfByte)

/-- The sixteen lowercase hexadecimal digit characters. -/
def lowerHexDigits : List Char :=
  (List.range 16).map hexDigitChar

/-- Spec-side predicate: a string is exactly 32 lowercase hex characters
(the spec wording for content-digest: MD5, 16 raw bytes, represented as
lowercase hex). -/
def isLowercaseHex32 (s : String) : Bool :=
  s.length == 32 && s.data.all (fun c => lowerHexDigits.contains c)

namespace tempKeyGetter

/-- Embedding of tempKeyGetter.getKey (src/s3_cache.go lines 64-91).

reader models the pair returned by getKeyReader: on failure the origin
SDK returns a nil ReadCloser together with the error.  The source
registers defer rc.Close() before inspecting the error, so on the error
path the deferred Close runs on a nil interface when getKey returns,
which is a runtime panic; the never-observed result built by the error
branch is therefore discarded and the call panics.  md5sum is the MD5
function of crypto/md5 (16-byte digests), kept as a parameter; the
source feeds it exactly the streamed bytes via io.MultiWriter and then
renders the sum with hex.Dump.  tempName is the name of the fresh
temporary file; temp-file creation and the copy are modelled as
succeeding (their failure branches are not at issue in any claim). -/
def getKey (md5sum : List Nat → List Nat) (tempName : String)
    (reader : Except String (List Nat)) (keyName : String) :
    Except GoPanic getResult :=
  match reader with
  | Except.error _ => Except.error GoPanic.nilPointerDereference
  | Except.ok content =>
      Except.ok
        { keyName := keyName
          status := "cache miss, transferred " ++ toString content.length ++ " bytes"
          localPath := some tempName
          bucketName := ""
          bytesTransferred := (content.length : Int)
          md5 := goHexDump (md5sum content) }

end tempKeyGetter

/-! Embedding of the parts of Go package path used by the disk cache:
path.Clean, path.Join and path.Dir.  These are purely lexical string
functions; they are modelled over the character lists of strings. -/

/-- Split a character list at every slash; a leading, trailing or doubled
slash yields empty components, exactly as splitting a Go path does. -/
def splitSlash (cs : List Char) : List (List Char) :=
  cs.foldr
    (fun c acc =>
      if c = '/' then [] :: acc
      else
        match acc with
        | h :: t => (c :: h) :: t
        | [] => [[c]])
    [[]]

/-- The element loop of Go path.Clean: empty and dot components are
dropped; a dotdot component pops the previous component when one is
there, is dropped at the root of a rooted path, and is kept in front of a
relative path.  Components already emitted never start with dotdot unless
the whole prefix is dotdots, so inspecting the last emitted component
decides the pop. -/
def cleanComps (rooted : Bool) (comps : List (List Char)) : List (List Char) :=
  comps.foldl
    (fun out c =>
      if c = [] ∨ c = ['.'] then out
      else if c = ['.', '.'] then
        if out ≠ [] ∧ out.getLast? ≠ some ['.', '.'] then out.dropLast
        else if rooted then out
        else out ++ [c]
      else out ++ [c])
    []

/-- Reassemble cleaned components with single slashes between them. -/
def joinComps : List (List Char) → List Char
  | [] => []
  | [c] => c
  | c :: cs => c ++ ('/' :: joinComps cs)

/-- Embedding of Go path.Clean: the shortest lexically equivalent path.
An empty path cleans to dot; a rooted path keeps its leading slash and
drops dotdots that would climb above the root. -/
def goPathClean (p : String) : String :=
  match p.data with
  | [] => "."
  | c :: cs =>
      let rooted := c == '/'
      let comps := cleanComps rooted (splitSlash (c :: cs))
      if comps = [] then (if rooted then "/" else ".")
      else (if rooted then "/" else "") ++ String.mk (joinComps comps)

/-- Embedding of Go path.Join: concatenate the non-empty elements with
slashes and clean the result; all-empty input gives the empty string. -/
def goPathJoin (elems : List String) : String :=
  if elems.all (fun e => e == "") then ""
  else
    goPathClean
      (elems.foldl
        (fun buf e =>
          if buf ≠ "" ∨ e ≠ "" then
            (if buf ≠ "" then buf ++ "/" else buf) ++ e
          else buf)
        "")

/-- Embedding of Go path.Dir: everything up to and including the final
slash, cleaned; a path without a slash has directory dot. -/
def goPathDir (p : String) : String :=
  goPathClean (String.mk ((p.data.reverse.dropWhile (fun c => !(c == '/'))).reverse))

/-- The filesystem as the disk cache sees it: the set of existing regular
file paths, plus the outcomes of the two mutating operations the cache
performs (os.MkdirAll on a directory and os.Rename from a temp path to a
cache path), kept as oracles so that both their success and failure
branches are representable. -/
structure DiskFS where
  files : List String
  mkdirFails : String → Bool
  renameFails : String → String → Bool
  renameErr : String → String → String

namespace diskCachedKeyGetter

/-- Embedding of diskCachedKeyGetter.pathFor (src/s3_cache.go lines
283-285): path.Join of the cache root, the bucket and the key. -/
def pathFor (cacheDir bucketName keyName : String) : String :=
  goPathJoin [cacheDir, bucketName, keyName]

/-- Embedding of diskCachedKeyGetter.has (lines 247-253): the canonical
path exists as a file. -/
def has (fs : DiskFS) (cacheDir bucketName keyName : String) : Bool :=
  fs.files.contains (pathFor cacheDir bucketName keyName)

/-- Embedding of diskCachedKeyGetter.moveToCache (lines 287-301).
Returns the (possibly updated) result, the error of the failing step when
one fails, and the filesystem after the rename.  The source message for
the MkdirAll failure contains an apostrophe (could not spelled with a
contraction); the apostrophe is elided here, and no theorem inspects that
message. -/
def moveToCache (fs : DiskFS) (cacheDir bucketName : String) (g : getResult) :
    getResult × Option String × DiskFS :=
  let newPath := pathFor cacheDir bucketName g.keyName
  match g.localPath with
  | none => (g, some "no localPath for given getResult", fs)
  | some oldPath =>
      if fs.mkdirFails (goPathDir newPath) then
        (g, some "could not create directory to move getResult to", fs)
      else if fs.renameFails oldPath newPath then
        (g, some (fs.renameErr oldPath newPath), fs)
      else
        ({ g with localPath := some newPath }, none,
         { fs with files := newPath :: fs.files.filter (fun f => !(f == oldPath)) })

/-- Embedding of diskCachedKeyGetter.get (lines 255-281): partition the
keys into disk hits and misses in input order, synthesize a hit result
per present key, delegate the misses to the base getter and promote each
base result into the cache; a promotion error replaces the status with
its text and clears the local path. -/
def get (fs : DiskFS) (cacheDir : String)
    (base : String → List String → List getResult)
    (bucketName : String) (keyNames : List String) :
    List getResult × DiskFS :=
  let hitsAndMissing :=
    keyNames.foldl
      (fun (acc : List getResult × List String) keyName =>
        if has fs cacheDir bucketName keyName then
          (acc.1 ++
            [{ keyName := keyName, status := "disk cache hit",
               localPath := some (pathFor cacheDir bucketName keyName),
               bucketName := bucketName, bytesTransferred := 0, md5 := "" }],
           acc.2)
        else (acc.1, acc.2 ++ [keyName]))
      ([], [])
  if hitsAndMissing.2.length > 0 then
    (base bucketName hitsAndMissing.2).foldl
      (fun (acc : List getResult × DiskFS) result =>
        let moved := moveToCache acc.2 cacheDir bucketName result
        match moved.2.1 with
        | some errText =>
            (acc.1 ++ [{ moved.1 with status := errText, localPath := none }], moved.2.2)
        | none => (acc.1 ++ [moved.1], moved.2.2))
      (hitsAndMissing.1, fs)
  else (hitsAndMissing.1, fs)

end diskCachedKeyGetter

namespace lruCachedKeyGetter

/-- The in-memory LRU state: the recency list of cached results with the
most recent at the front (Go container/list, with the (bucket, key) →
element map realized by looking an entry up by its identity fields). -/
def lruLookup (order : List getResult) (bucketName keyName : String) :
    Option getResult :=
  order.find? (fun r => r.bucketName == bucketName && r.keyName == keyName)

/-- Go list.MoveToFront on the element holding (bucketName, keyName). -/
def lruMoveToFront (bucketName keyName : String) (order : List getResult) :
    List getResult :=
  match lruLookup order bucketName keyName with
  | none => order
  | some r =>
      r :: order.eraseP (fun x => x.bucketName == bucketName && x.keyName == keyName)

/-- Embedding of lruCachedKeyGetter.get (src/s3_cache.go lines 197-233).
out and missing start with the lengths the source preallocates (n zero
results and n/2 empty key names, since the source uses make with a
nonzero length and then appends).  A hit copies the stored entry, sets
status of the copy to cache_hit and moves the stored element to the
front; the missing keys are fetched from the base getter and each result
is pushed to the front. -/
def get (base : String → List String → List getResult)
    (bucketName : String) (keyNames : List String) (order : List getResult) :
    List getResult × List getResult :=
  let start : List getResult × List String × List getResult :=
    (List.replicate keyNames.length getResult.zero,
     List.replicate (keyNames.length / 2) "",
     order)
  let looped :=
    keyNames.foldl
      (fun acc keyName =>
        match lruLookup acc.2.2 bucketName keyName with
        | some cachedResult =>
            (acc.1 ++ [{ cachedResult with status := "cache_hit" }], acc.2.1,
             lruMoveToFront bucketName keyName acc.2.2)
        | none => (acc.1, acc.2.1 ++ [keyName], acc.2.2))
      start
  if looped.2.1.length > 0 then
    (base bucketName looped.2.1).foldl
      (fun (acc : List getResult × List getResult) result =>
        (acc.1 ++ [result], result :: acc.2))
      (looped.1, looped.2.2)
  else (looped.1, looped.2.2)

/-- Embedding of lruCachedKeyGetter.oldest (lines 177-183): the value at
the back of the recency list. -/
def oldest (order : List getResult) : Option getResult :=
  order.getLast?

/-- Embedding of lruCachedKeyGetter.remove (lines 185-195) on the recency
list: drop the element registered for (bucketName, keyName). -/
def remove (bucketName keyName : String) (order : List getResult) :
    List getResult :=
  order.eraseP (fun x => x.bucketName == bucketName && x.keyName == keyName)

end lruCachedKeyGetter

namespace boundedDiskCachedKeyGetter

/-- The disk tier as the reaper touches it: the set of (bucket, key)
pairs with a file on disk. -/
def diskRemove (bucketName keyName : String) (disk : List (String × String)) :
    List (String × String) :=
  disk.filter (fun e => !(e == (bucketName, keyName)))

/-- The inner eviction loop of keepClean (src/s3_cache.go lines 131-140),
kept verbatim: it runs while maxBytes - totalDownloaded > 0, pops the
oldest entry, removes it from the LRU list and from disk, and subtracts
its bytes; it breaks when the list is empty.  Each iteration removes one
entry, so lru.length + 1 steps of the Nat counter bound the loop and the
recursion is structural. -/
def evictLoop (maxBytes : Int) :
    Nat → Int → List getResult → List (String × String) →
      Int × List getResult × List (String × String)
  | 0, totalDownloaded, lru, disk => (totalDownloaded, lru, disk)
  | fuel + 1, totalDownloaded, lru, disk =>
      if maxBytes - totalDownloaded > 0 then
        match lruCachedKeyGetter.oldest lru with
        | none => (totalDownloaded, lru, disk)
        | some oldestResult =>
            evictLoop maxBytes fuel
              (totalDownloaded - oldestResult.bytesTransferred)
              (lruCachedKeyGetter.remove oldestResult.bucketName oldestResult.keyName lru)
              (diskRemove oldestResult.bucketName oldestResult.keyName disk)
      else (totalDownloaded, lru, disk)

/-- One turn of the keepClean loop (lines 125-144): receive a delta from
the downloaded channel, add it to the running total and, when the total
exceeds maxBytes, run the inner eviction loop. -/
def keepCleanStep (maxBytes totalDownloaded delta : Int)
    (lru : List getResult) (disk : List (String × String)) :
    Int × List getResult × List (String × String) :=
  let total := totalDownloaded + delta
  if total > maxBytes then evictLoop maxBytes (lru.length + 1) total lru disk
  else (total, lru, disk)

/-- keepClean draining a finite sequence of deltas from the channel. -/
def keepCleanRun (maxBytes : Int) :
    Int → List Int → List getResult → List (String × String) →
      Int × List getResult × List (String × String)
  | totalDownloaded, [], lru, disk => (totalDownloaded, lru, disk)
  | totalDownloaded, d :: ds, lru, disk =>
      let next := keepCleanStep maxBytes totalDownloaded d lru disk
      keepCleanRun maxBytes next.1 ds next.2.1 next.2.2

end boundedDiskCachedKeyGetter

/-- The CachedKeyGetter interface (src/s3_cache.go lines 41-45) over an
explicit cache state: batch get, per-key presence and per-key removal
(whose Bool reports whether something was removed). -/
structure CachedKeyGetterModel (σ : Type) where
  has : σ → String → String → Bool
  get : σ → String → List String → List getResult × σ
  remove : σ → String → String → Bool × σ

namespace EvictingMutableKeyGetter

/-- Embedding of EvictingMutableKeyGetter.Get (src/s3_cache.go lines
341-375).  shouldEvict returns the (bool, error) pair of the
ShouldEvicter, error as Option String.  The keys are partitioned with has
into present and absent; the present ones are materialized with the
embedded get; then, for a mutable bucket, each cached result is kept only
when the oracle condition err is non-nil and evict is false holds, and is
otherwise removed from the cache and refetched together with the absent
keys.  out starts with the n zero results the source preallocates. -/
def Get {σ : Type} (cache : CachedKeyGetterModel σ)
    (shouldEvict : getResult → Bool × Option String)
    (bucketName : String) (keyNames : List String) (mutableBucket : Bool)
    (st : σ) : List getResult × σ :=
  let presents := keyNames.filter (fun k => cache.has st bucketName k)
  let absents0 := keyNames.filter (fun k => !(cache.has st bucketName k))
  let cachedAndSt := cache.get st bucketName presents
  let folded :=
    cachedAndSt.1.foldl
      (fun (acc : List getResult × List String × σ) r =>
        if !mutableBucket then (acc.1 ++ [r], acc.2.1, acc.2.2)
        else
          let ev := shouldEvict r
          if ev.2.isSome && !ev.1 then (acc.1 ++ [r], acc.2.1, acc.2.2)
          else
            let rem := cache.remove acc.2.2 bucketName r.keyName
            (acc.1, acc.2.1 ++ [r.keyName], rem.2))
      (List.replicate keyNames.length getResult.zero, absents0, cachedAndSt.2)
  if folded.2.1.length > 0 then
    let fetcht := cache.get folded.2.2 bucketName folded.2.1
    (folded.1 ++ fetcht.1, fetcht.2)
  else (folded.1, folded.2.2)

end EvictingMutableKeyGetter

/-- Embedding of the CacheRequest JSON body (src/s3_cache.go lines
385-389). -/
structure CacheRequest where
  bucketName : String
  keyNames : List String
  mutableBucket : Bool
deriving DecidableEq, Repr

/-- The Go zero value of CacheRequest, which is what a failed decode
leaves behind. -/
def CacheRequest.zero : CacheRequest := { bucketName := "", keyNames := [], mutableBucket := false }

/-- What the handler writes to the ResponseWriter, in order: http.Error
emits the message with the status code, Write appends a body. -/
inductive HttpAction where
  | httpError (msg : String) (code : Nat)
  | bodyWrite (body : String)
deriving DecidableEq, Repr

namespace keyServer

/-- Embedding of keyServer.ServeHTTP (src/s3_cache.go lines 391-402).
decoded is the outcome of json.Decode on the request body; marshal is
json.Marshal on the result slice.  Neither error branch of the source
returns, so the handler always goes on to call Get (with the zero request
after a decode failure) and always reaches w.Write.  The returned pair is
the ordered writes to the response and the list of Get invocations with
their arguments. -/
def ServeHTTP (getFn : String → List String → Bool → List getResult)
    (marshal : List getResult → Except String String)
    (decoded : Except String CacheRequest) :
    List HttpAction × List (String × List String × Bool) :=
  let decodeActsAndCr :=
    match decoded with
    | Except.error e => ([HttpAction.httpError e 500], CacheRequest.zero)
    | Except.ok cr => ([], cr)
  let cr := decodeActsAndCr.2
  let results := getFn cr.bucketName cr.keyNames cr.mutableBucket
  let calls := [(cr.bucketName, cr.keyNames, cr.mutableBucket)]
  match marshal results with
  | Except.error e =>
      (decodeActsAndCr.1 ++ [HttpAction.httpError e 500, HttpAction.bodyWrite ""], calls)
  | Except.ok out => (decodeActsAndCr.1 ++ [HttpAction.bodyWrite out], calls)

end keyServer

/-- The bytes of the string hello, used as a concrete origin object. -/
def helloBytes : List Nat := [104, 101, 108, 108, 111]

/-- The MD5 digest of hello (5d41402abc4b2a76b9719d911017c592) as its 16
raw bytes. -/
def helloDigest : List Nat :=
  [93, 65, 64, 42, 188, 75, 42, 118, 185, 113, 157, 145, 16, 23, 197, 146]

/-- A base getter that resolves every requested key to a fresh fetch of
five bytes, standing in for the fetcher below the LRU layer. -/
def base0 : String → List String → List getResult :=
  fun b ks =>
    ks.map fun k =>
      { keyName := k, status := "cache miss, transferred 5 bytes",
        localPath := some "/tmp/s3cache_0", bucketName := b,
        bytesTransferred := 5, md5 := "" }

/-- A base getter used by the LRU hit theorem, identical in shape to
base0 (the hit path never reaches it). -/
def baseW : String → List String → List getResult :=
  fun b ks =>
    ks.map fun k =>
      { keyName := k, status := "cache miss, transferred 9 bytes",
        localPath := some "/tmp/s3cache_9", bucketName := b,
        bytesTransferred := 9, md5 := "" }

/-- A concrete LRU entry for the hit theorem. -/
def demoEntry : getResult :=
  { keyName := "k", status := "cache miss, transferred 7 bytes",
    localPath := some "/cache/b/k", bucketName := "b",
    bytesTransferred := 7, md5 := "abcd" }

/-- Four five-byte LRU entries for the reaper scenario. -/
def demoLru : List getResult :=
  [{ getResult.zero with keyName := "k4", bucketName := "b", bytesTransferred := 5 },
   { getResult.zero with keyName := "k3", bucketName := "b", bytesTransferred := 5 },
   { getResult.zero with keyName := "k2", bucketName := "b", bytesTransferred := 5 },
   { getResult.zero with keyName := "k1", bucketName := "b", bytesTransferred := 5 }]

/-- The disk view matching demoLru. -/
def demoDisk : List (String × String) :=
  [("b", "k1"), ("b", "k2"), ("b", "k3"), ("b", "k4")]

/-- State of a concrete CachedKeyGetter used with the mutability gate:
the stored entries keyed by (bucket, key) and the log of keys that were
fetched from the base on a miss. -/
structure SimpleCacheState where
  entries : List ((String × String) × getResult)
  baseCalls : List String
deriving DecidableEq, Repr

/-- The result the concrete cache fabricates when a miss goes to its
base. -/
def baseFetch (bucketName keyName : String) : getResult :=
  { keyName := keyName, status := "fetched from base",
    localPath := some ("/tmp/" ++ keyName), bucketName := bucketName,
    bytesTransferred := 1, md5 := "" }

/-- A concrete CachedKeyGetter (a read-through cache over baseFetch) that
records every base fetch, used to instantiate the mutability gate. -/
def simpleCache : CachedKeyGetterModel SimpleCacheState :=
  { has := fun s b k => (s.entries.find? (fun e => e.1 == (b, k))).isSome
    get := fun s b ks =>
      ks.foldl
        (fun (acc : List getResult × SimpleCacheState) k =>
          match acc.2.entries.find? (fun e => e.1 == (b, k)) with
          | some e => (acc.1 ++ [e.2], acc.2)
          | none =>
              (acc.1 ++ [baseFetch b k],
               { entries := acc.2.entries ++ [((b, k), baseFetch b k)],
                 baseCalls := acc.2.baseCalls ++ [k] }))
        ([], s)
    remove := fun s b k =>
      ((s.entries.find? (fun e => e.1 == (b, k))).isSome,
       { entries := s.entries.filter (fun e => !(e.1 == (b, k))),
         baseCalls := s.baseCalls }) }

/-- A cached entry that is present and, per the oracle used in the fresh
theorem, fresh. -/
def cachedEntry : getResult :=
  { keyName := "k", status := "disk cache hit", localPath := some "/cache/b/k",
    bucketName := "b", bytesTransferred := 0, md5 := "aa" }

/-- A cache state holding exactly cachedEntry, with no base fetch yet. -/
def evictDemoState : SimpleCacheState :=
  { entries := [(("b", "k"), cachedEntry)], baseCalls := [] }

/-- A filesystem whose only file sits at the escaped path /x, outside the
cache root /cache, with mkdir and rename succeeding. -/
def fsEscape : DiskFS :=
  { files := ["/x"], mkdirFails := fun _ => false,
    renameFails := fun _ _ => false, renameErr := fun _ _ => "rename error" }

/-- A base getter that is never consulted. -/
def baseEmpty : String → List String → List getResult := fun _ _ => []

/-- A marshaller that always succeeds with a fixed JSON body. -/
def marshalOk : List getResult → Except String String := fun _ => Except.ok "[]"

/-- A getter for the HTTP handler theorem that records nothing and
returns no results. -/
def getEmpty : String → List String → Bool → List getResult := fun _ _ _ => []

/-- An empty filesystem with mkdir and rename succeeding. -/
def fsNone : DiskFS :=
  { files := [], mkdirFails := fun _ => false,
    renameFails := fun _ _ => false, renameErr := fun _ _ => "rename error" }

/-- A base getter whose fetch of k2 failed at the origin: the result
carries the origin error text as status and no local path. -/
def baseFailK2 : String → List String → List getResult :=
  fun b _ =>
    [{ keyName := "k2", status := "origin timeout", localPath := none,
       bucketName := b, bytesTransferred := 0, md5 := "d0" }]

/-! Theorems. -/

/-- When find? locates an element, the list is a permutation of that
element consed onto the eraseP of the list with the same predicate. -/
theorem perm_cons_eraseP_of_find {α : Type} (p : α → Bool) (l : List α) :
    ∀ a : α, l.find? p = some a → l.Perm (a :: l.eraseP p) := by
  induction l with
  | nil => intro a h; simp [List.find?] at h
  | cons x xs ih =>
      intro a h
      cases hpx : p x with
      | true =>
          rw [List.find?_cons_of_pos _ hpx] at h
          injection h with h
          subst h
          rw [List.eraseP_cons_of_pos hpx]
      | false =>
          have hnx : ¬ p x := by simp [hpx]
          rw [List.find?_cons_of_neg _ hnx] at h
          rw [List.eraseP_cons_of_neg hnx]
          exact ((ih a h).cons x).trans (List.Perm.swap a x _)

/-- Claim C1: the spec requires every layer's get(bucket, K) with n keys
to return exactly n results whose key-name multiset equals K.  The LRU
layer preallocates its out slice with nonzero length and then appends, so
a one-key get on an empty cache returns two results, the first being the
zero value with an empty key name. -/
theorem C1_lru_batch_size_wrong :
    ((lruCachedKeyGetter.get base0 "b" ["k"] []).1).length = 2
  ∧ ((lruCachedKeyGetter.get base0 "b" ["k"] []).1).map getResult.keyName = ["", "k"] := by
  decide

/-- Claim C2: the spec requires the reaper to evict least-recently-used
entries while the total exceeds the budget.  The source inner loop runs
while maxBytes - totalDownloaded > 0, which is false exactly when the
total exceeds the budget, so draining any delta sequence only accumulates
the total and never touches the LRU or the disk: with budget 10 and a
20-byte delta over four 5-byte entries, the total settles at 20, above
budget plus the largest entry. -/
theorem C2_keepClean_never_evicts :
    (∀ (maxBytes totalDownloaded : Int) (deltas : List Int)
        (lru : List getResult) (disk : List (String × String)),
        boundedDiskCachedKeyGetter.keepCleanRun maxBytes totalDownloaded deltas lru disk
          = (totalDownloaded + deltas.sum, lru, disk))
  ∧ boundedDiskCachedKeyGetter.keepCleanRun 10 0 [20] demoLru demoDisk
      = (20, demoLru, demoDisk) := by
  have hstep : ∀ (maxBytes totalDownloaded delta : Int) (lru : List getResult)
      (disk : List (String × String)),
      boundedDiskCachedKeyGetter.keepCleanStep maxBytes totalDownloaded delta lru disk
        = (totalDownloaded + delta, lru, disk) := by
    intro maxBytes total delta lru disk
    unfold boundedDiskCachedKeyGetter.keepCleanStep
    by_cases h : total + delta > maxBytes
    · rw [if_pos h]
      unfold boundedDiskCachedKeyGetter.evictLoop
      rw [if_neg (by linarith)]
    · rw [if_neg h]
  have hrun : ∀ (deltas : List Int) (maxBytes totalDownloaded : Int)
      (lru : List getResult) (disk : List (String × String)),
      boundedDiskCachedKeyGetter.keepCleanRun maxBytes totalDownloaded deltas lru disk
        = (totalDownloaded + deltas.sum, lru, disk) := by
    intro deltas
    induction deltas with
    | nil =>
        intro maxBytes total lru disk
        simp [boundedDiskCachedKeyGetter.keepCleanRun]
    | cons d ds ih =>
        intro maxBytes total lru disk
        simp only [boundedDiskCachedKeyGetter.keepCleanRun, hstep]
        rw [ih]
        simp [add_assoc]
  exact ⟨fun maxBytes total ds lru disk => hrun ds maxBytes total lru disk,
    by rw [hrun]; norm_num⟩

/-- Claim C3: the spec requires a present entry judged (false, nil) by
the oracle (fresh, no error) to be returned as-is with no base call.  The
source keeps a cached result only when err is non-nil and evict is false
both hold, so a fresh verdict with a nil error falls into the else
branch: the entry is removed and refetched from the base, as this run on
a one-entry cache shows (the base-call log gains the key, and the cached
entry is not among the returned results). -/
theorem C3_fresh_entry_evicted_and_refetched :
    (EvictingMutableKeyGetter.Get simpleCache (fun _ => (false, none))
        "b" ["k"] true evictDemoState).2.baseCalls = ["k"]
  ∧ (EvictingMutableKeyGetter.Get simpleCache (fun _ => (false, none))
        "b" ["k"] true evictDemoState).1 = [getResult.zero, baseFetch "b" "k"]
  ∧ ((EvictingMutableKeyGetter.Get simpleCache (fun _ => (false, none))
        "b" ["k"] true evictDemoState).1).contains cachedEntry = false := by
  decide

/-- Claim C4 counterexample: the claim says the base result's original
status (the origin error text) is retained when the base fetch failed; in
the source, moveToCache fails with "no localPath for given getResult" and
get overwrites the status with that text, discarding the origin text. -/
theorem C4_counterexample :
    ((diskCachedKeyGetter.get fsNone "/cache" baseFailK2 "b" ["k2"]).1).map getResult.status
      = ["no localPath for given getResult"]
  ∧ (((diskCachedKeyGetter.get fsNone "/cache" baseFailK2 "b" ["k2"]).1).map
        getResult.status).contains "origin timeout" = false := by
  decide

/-- Claim C4 as amended: when the base result for a missed key has no
local path, DiskCache.get returns it with local path null and the status
replaced by the promotion error text; the identity fields, byte count and
digest of the base result are retained, for every origin status text. -/
theorem C4_promotion_error_replaces_status
    (cacheDir bucketName keyName statusText md5Text : String) (n : Int)
    (mkdirF : String → Bool) (renameF : String → String → Bool)
    (renameE : String → String → String) :
    diskCachedKeyGetter.get
        { files := [], mkdirFails := mkdirF, renameFails := renameF,
          renameErr := renameE }
        cacheDir
        (fun b _ =>
          [{ keyName := keyName, status := statusText, localPath := none,
             bucketName := b, bytesTransferred := n, md5 := md5Text }])
        bucketName [keyName]
      = ([{ keyName := keyName, status := "no localPath for given getResult",
            localPath := none, bucketName := bucketName, bytesTransferred := n,
            md5 := md5Text }],
         { files := [], mkdirFails := mkdirF, renameFails := renameF,
           renameErr := renameE }) := rfl

/-- Claim C5: the spec requires the content digest of a successful fetch
to be the MD5 of the streamed bytes as 32 lowercase hex characters.  The
source renders the sum with hex.Dump, the multi-column hexdump format,
not hex.EncodeToString: fetching the five bytes of hello yields the
79-character dump line instead of the 32-character encoding. -/
theorem C5_md5_rendered_as_hexdump :
    tempKeyGetter.getKey (fun _ => helloDigest) "/tmp/s3cache_0"
        (Except.ok helloBytes) "k1"
      = Except.ok
          { keyName := "k1", status := "cache miss, transferred 5 bytes",
            localPath := some "/tmp/s3cache_0", bucketName := "",
            bytesTransferred := 5, md5 := goHexDump helloDigest }
  ∧ isLowercaseHex32 (goHexDump helloDigest) = false
  ∧ (goHexDump helloDigest).length = 79
  ∧ goHexEncode helloDigest = "5d41402abc4b2a76b9719d911017c592"
  ∧ isLowercaseHex32 (goHexEncode helloDigest) = true := by
  refine ⟨rfl, by decide, by decide, by decide, by decide⟩

/-- Claim C6: the spec pins the conservative rule that an oracle error
keeps the entry regardless of the accompanying boolean.  The source keeps
the entry only when the boolean is false: an oracle reply (true, err)
falls into the else branch, so the entry is removed and refetched. -/
theorem C6_oracle_error_entry_evicted :
    (EvictingMutableKeyGetter.Get simpleCache (fun _ => (true, some "oracle unavailable"))
        "b" ["k"] true evictDemoState).2.baseCalls = ["k"]
  ∧ ((EvictingMutableKeyGetter.Get simpleCache (fun _ => (true, some "oracle unavailable"))
        "b" ["k"] true evictDemoState).1).contains cachedEntry = false
  ∧ ((EvictingMutableKeyGetter.Get simpleCache (fun _ => (true, some "oracle unavailable"))
        "b" ["k"] true evictDemoState).2.entries).contains (("b", "k"), cachedEntry)
      = false := by
  decide

/-- Claim C7: the spec requires a failed origin open to produce a normal
result with the failure text as status.  The source defers rc.Close()
before checking the error, so when getKeyReader returns a nil reader with
an error the deferred call panics on the nil interface at return, and no
result is produced at all. -/
theorem C7_reader_error_panics :
    tempKeyGetter.getKey (fun _ => helloDigest) "/tmp/s3cache_1"
        (Except.error "The specified key does not exist.") "k1"
      = Except.error GoPanic.nilPointerDereference := rfl

/-- Claim C8 counterexample: the claim says traversal keys are rejected
with an error status and that the canonical path always lies under the
cache root; in the source the canonical path of (/cache, b, ../../x) is
/x, outside the root, and the key is served as an ordinary disk cache hit
with no error status. -/
theorem C8_counterexample :
    ("/cache").data.isPrefixOf
        ((diskCachedKeyGetter.pathFor "/cache" "b" "../../x").data) = false
  ∧ ((diskCachedKeyGetter.get fsEscape "/cache" baseEmpty "b" ["../../x"]).1).map
        getResult.status = ["disk cache hit"] := by
  decide

/-- Claim C8 as amended: DiskCache performs no key validation; the
canonical path is path.Clean of join(root, bucket, key), so a key with
dotdot segments yields a canonical path outside the cache root, and
DiskCache performs its normal filesystem access there, here returning a
file at the escaped path /x as a disk cache hit. -/
theorem C8_traversal_key_served_not_rejected :
    diskCachedKeyGetter.pathFor "/cache" "b" "../../x" = "/x"
  ∧ (diskCachedKeyGetter.get fsEscape "/cache" baseEmpty "b" ["../../x"]).1
      = [{ keyName := "../../x", status := "disk cache hit",
           localPath := some "/x", bucketName := "b",
           bytesTransferred := 0, md5 := "" }] := by
  decide

/-- Claim C9: the spec requires a decode failure to produce a 500 with no
key retrieval and no result body.  Neither error branch of ServeHTTP
returns, so after writing the 500 the handler still calls Get with the
zero-valued request and appends the marshalled result body. -/
theorem C9_handler_continues_after_decode_error :
    keyServer.ServeHTTP getEmpty marshalOk (Except.error "invalid character")
      = ([HttpAction.httpError "invalid character" 500, HttpAction.bodyWrite "[]"],
         [("", [], false)]) := rfl

/-- Claim C10: a hit in the LRU layer returns a copy of the stored result
with status rewritten to cache_hit, while the stored entry itself keeps
every field unchanged and only moves to the front of the recency list:
after the get, the rewritten copy is among the results, the unchanged
entry heads the new list, and the new list is a permutation of the old. -/
theorem C10_lru_hit_frame
    (base : String → List String → List getResult) (bucketName keyName : String)
    (order : List getResult) (r : getResult)
    (h : lruCachedKeyGetter.lruLookup order bucketName keyName = some r) :
    ({ r with status := "cache_hit" }
        ∈ (lruCachedKeyGetter.get base bucketName [keyName] order).1)
  ∧ ((lruCachedKeyGetter.get base bucketName [keyName] order).2).head? = some r
  ∧ order.Perm ((lruCachedKeyGetter.get base bucketName [keyName] order).2) := by
  have hget : lruCachedKeyGetter.get base bucketName [keyName] order
      = ([getResult.zero, { r with status := "cache_hit" }],
         r :: order.eraseP
           (fun x => x.bucketName == bucketName && x.keyName == keyName)) := by
    simp [lruCachedKeyGetter.get, lruCachedKeyGetter.lruMoveToFront, h,
      List.replicate]
  have h' : order.find?
      (fun x => x.bucketName == bucketName && x.keyName == keyName) = some r := h
  refine ⟨?_, ?_, ?_⟩
  · rw [hget]; simp
  · rw [hget]; rfl
  · rw [hget]
    exact perm_cons_eraseP_of_find _ order r h'

/-- Witness for C10 at a concrete one-entry cache. -/
theorem C10_lru_hit_frame_witness :
    lruCachedKeyGetter.lruLookup [demoEntry] "b" "k" = some demoEntry
  ∧ (({ demoEntry with status := "cache_hit" }
        ∈ (lruCachedKeyGetter.get baseW "b" ["k"] [demoEntry]).1)
     ∧ ((lruCachedKeyGetter.get baseW "b" ["k"] [demoEntry]).2).head? = some demoEntry
     ∧ [demoEntry].Perm ((lruCachedKeyGetter.get baseW "b" ["k"] [demoEntry]).2)) :=
  ⟨by decide, C10_lru_hit_frame baseW "b" "k" [demoEntry] demoEntry (by decide)⟩

end S3Cache
